import Mathlib

/-!
Verification of the formatting-pipeline and diagnostic-mapping core of
src/gofmt.py (a Sublime Text plugin that pipes buffer text through external
formatting commands).  The Python source is shallowly embedded: buffer text
is a list of characters, the Sublime view API (rowcol, text_point, line,
substr, replace) is modelled concretely over that list, the Python 3
distinction between str and bytes is kept (it decides the behaviour of the
empty pipeline), and each external subprocess is a parameter of type Exec
mapping an argv vector and a stdin buffer to stdout, stderr and exit code.
-/

namespace Gofmt

/-- A sublime.Region: a pair of buffer offsets. -/
structure Region where
  a : Nat
  b : Nat
deriving DecidableEq

/-- Region.begin from the Sublime API: the smaller endpoint. -/
def Region.begin (r : Region) : Nat := min r.a r.b

/-- Region.end from the Sublime API: the larger endpoint. -/
def Region.end' (r : Region) : Nat := max r.a r.b

/-- A sublime.View, reduced to what gofmt.py reads: the buffer text and the
optional backing file name. -/
structure View where
  text : List Char
  fileName : Option (List Char)
deriving DecidableEq

/-- Helper for View.rowcol: the 0-based (row, column) of an offset in a
character list.  Offsets past the end clamp to the end, as in Sublime. -/
def rowcolAux : List Char → Nat → Nat × Nat
  | _, 0 => (0, 0)
  | [], _ + 1 => (0, 0)
  | ch :: t, n + 1 =>
    if ch = '\n' then ((rowcolAux t n).1 + 1, (rowcolAux t n).2)
    else ((rowcolAux t n).1,
          if (rowcolAux t n).1 = 0 then (rowcolAux t n).2 + 1
          else (rowcolAux t n).2)

/-- view.rowcol(offset): 0-based row and column of a buffer offset. -/
def View.rowcol (v : View) (off : Nat) : Nat × Nat := rowcolAux v.text off

/-- view.size(). -/
def View.size (v : View) : Nat := v.text.length

/-- view.substr(region): the text of the half-open range of the region. -/
def View.substr (v : View) (r : Region) : List Char :=
  (v.text.drop r.begin).take (r.end' - r.begin)

/-- Offset of the start of a given 0-based row; rows past the last clamp to
the buffer end, as Sublime does. -/
def lineStartOff : List Char → Nat → Nat
  | _, 0 => 0
  | [], _ + 1 => 0
  | ch :: t, n + 1 =>
    if ch = '\n' then 1 + lineStartOff t n else 1 + lineStartOff t (n + 1)

/-- Length of the line starting at a given offset (up to the next newline). -/
def lineLenFrom (text : List Char) (s : Nat) : Nat :=
  ((text.drop s).takeWhile (fun ch => ch != '\n')).length

/-- view.text_point(row, col): offset of a (row, col) position; negative and
oversized inputs clamp into the buffer, as in Sublime. -/
def View.text_point (v : View) (row col : Int) : Nat :=
  let s := lineStartOff v.text row.toNat
  s + min col.toNat (lineLenFrom v.text s)

/-- view.line(pt).end(): offset of the end of the line containing pt. -/
def View.lineEnd (v : View) (pt : Nat) : Nat :=
  let p := min pt v.text.length
  p + lineLenFrom v.text p

/-- view.replace(edit, region, replacement): splice new text over a region. -/
def View.replace (v : View) (r : Region) (repl : List Char) : View :=
  ⟨v.text.take r.begin ++ repl ++ v.text.drop r.end', v.fileName⟩

/-- Line-boundary characters of Python str.splitlines. -/
def isLineBreak (ch : Char) : Bool :=
  ch == '\n' || ch == '\r' || ch == '\x0b' || ch == '\x0c' ||
  ch == '\x1c' || ch == '\x1d' || ch == '\x1e' || ch == '\x85' ||
  ch == '\u2028' || ch == '\u2029'

/-- Python str.splitlines: split at line boundaries, treating a CR LF pair
as one boundary, with no trailing empty line. -/
def pySplitLines : List Char → List (List Char)
  | [] => []
  | '\r' :: '\n' :: t => [] :: pySplitLines t
  | ch :: t =>
    if isLineBreak ch then [] :: pySplitLines t
    else
      match pySplitLines t with
      | [] => [[ch]]
      | l :: ls => (ch :: l) :: ls

/-- Python str.replace: replace every non-overlapping occurrence of a
pattern, scanning left to right.  The plugin only calls it with a fixed
non-empty pattern. -/
def listReplace (pat rep : List Char) : List Char → List Char
  | [] => []
  | ch :: t =>
    if h : pat ≠ [] ∧ pat.isPrefixOf (ch :: t) then
      rep ++ listReplace pat rep ((ch :: t).drop pat.length)
    else
      ch :: listReplace pat rep t
termination_by l => l.length
decreasing_by
  · have hp : 0 < pat.length := List.length_pos.mpr h.1
    simp only [List.length_drop, List.length_cons]
    omega
  · simp [List.length_cons]

/-- ASCII decimal digit, as matched by the backslash-d class of the
diagnostic regex (the model restricts to ASCII digits). -/
def isDigitCh (ch : Char) : Bool := decide ('0' ≤ ch ∧ ch ≤ '9')

/-- Whitespace as matched by the backslash-s class of the diagnostic regex
(the common whitespace characters; exotic Unicode spaces are out of scope of
the model). -/
def isSpaceCh (ch : Char) : Bool :=
  ch == ' ' || ch == '\t' || ch == '\n' || ch == '\r' || ch == '\x0b' ||
  ch == '\x0c' || ch == '\x1c' || ch == '\x1d' || ch == '\x1e' ||
  ch == '\x85' || ch == '\xa0'

/-- Python int() on a run of decimal digits. -/
def digitsVal (ds : List Char) : Nat :=
  ds.foldl (fun n ch => 10 * n + (ch.toNat - '0'.toNat)) 0

/-- Match the tail of the diagnostic regex after a colon: one-or-more digits,
a colon, one-or-more digits, a colon, one-or-more whitespace characters, then
the captured message.  Greedy digit and whitespace runs are maximal runs,
which is what the backtracking engine commits to here. -/
def matchTail (l : List Char) : Option (Nat × Nat × List Char) :=
  let d1 := l.takeWhile isDigitCh
  let r1 := l.dropWhile isDigitCh
  if d1 = [] then none
  else
    match r1 with
    | ':' :: r2 =>
      let d2 := r2.takeWhile isDigitCh
      let r3 := r2.dropWhile isDigitCh
      if d2 = [] then none
      else
        match r3 with
        | ':' :: r4 =>
          let sp := r4.takeWhile isSpaceCh
          let msg := r4.dropWhile isSpaceCh
          if sp = [] then none else some (digitsVal d1, digitsVal d2, msg)
        | _ => none
    | _ => none

/-- The greedy leading dot-star of Error.line_re: try colons from the right,
committing to the rightmost colon whose tail matches. -/
def findColonMatch : List Char → Option (Nat × Nat × List Char)
  | [] => none
  | ch :: t =>
    match findColonMatch t with
    | some res => some res
    | none => if ch = ':' then matchTail t else none

/-- Error.line_re.match on one stderr line: the anchored pattern
dot-star, colon, digits, colon, digits, colon, whitespace, message, returning
the two numbers and the message capture. -/
def lineMatch (l : List Char) : Option (Nat × Nat × List Char) :=
  findColonMatch l

/-- The placeholder under which gofmt reports its standard input. -/
def stdinToken : List Char := "<standard input>".data

/-- The label used for a buffer with no backing file. -/
def anonymousLabel : List Char := "<anonymous buffer>".data

/-- os.path.basename, POSIX flavour: the part after the last slash. -/
def basename (p : List Char) : List Char :=
  (p.reverse.takeWhile (fun ch => ch != '/')).reverse

/-- The fn variable of Error.parse_stderr: the short file name of the view,
or the anonymous-buffer label. -/
def View.displayName (v : View) : List Char :=
  match v.fileName with
  | none => anonymousLabel
  | some f => basename f

/-- The stderr text Error.parse_stderr actually splits: the placeholder is
replaced by the short file name only when the view has a backing file. -/
def subbedStderr (stderr : List Char) (v : View) : List Char :=
  match v.fileName with
  | none => stderr
  | some f => listReplace stdinToken (basename f) stderr

/-- One parsed diagnostic (class Error of gofmt.py). -/
structure Error where
  text : List Char
  region : Region
  row : Int
  col : Int
  filename : List Char
deriving DecidableEq

/-- Replace the filename field of a diagnostic. -/
def Error.setFilename (e : Error) (fn : List Char) : Error :=
  ⟨e.text, e.region, e.row, e.col, fn⟩

/-- The loop body of Error.parse_stderr for one matching line: convert the
1-based raw row and column to 0-based, add the region origin column when the
diagnostic is on the first line of the region, always add the region origin
row, and mark from the mapped point to the end of its line. -/
def mapDiagnostic (v : View) (regionRow regionCol : Nat) (fn : List Char)
    (r c : Nat) (text : List Char) : Error :=
  let row0 : Int := (r : Int) - 1
  let col0 : Int := (c : Int) - 1
  let col1 : Int := if row0 = 0 then col0 + (regionCol : Int) else col0
  let row1 : Int := row0 + (regionRow : Int)
  let pa := v.text_point row1 col1
  let pb := v.lineEnd pa
  ⟨text, ⟨pa, pb⟩, row1, col1, fn⟩

/-- The for-loop of Error.parse_stderr: non-matching lines are skipped,
matching lines append one mapped diagnostic each. -/
def parseLoop (v : View) (regionRow regionCol : Nat) (fn : List Char) :
    List (List Char) → List Error
  | [] => []
  | l :: ls =>
    match lineMatch l with
    | none => parseLoop v regionRow regionCol fn ls
    | some (r, c, text) =>
      mapDiagnostic v regionRow regionCol fn r c text ::
        parseLoop v regionRow regionCol fn ls

/-- Error.parse_stderr of gofmt.py. -/
def Error.parse_stderr (stderr : List Char) (region : Region) (v : View) :
    List Error :=
  let p := v.rowcol region.begin
  parseLoop v p.1 p.2 v.displayName (pySplitLines (subbedStderr stderr v))

/-- The behaviour of the external world when a subprocess is spawned: an
argv vector and a stdin buffer yield stdout, stderr and an exit code. -/
abbrev Exec := List (List Char) → List Char → List Char × List Char × Int

/-- class Command of gofmt.py: the configured name, the configured static
arguments, and the path resolved by golangconfig. -/
structure Command where
  name : List Char
  args : List (List Char)
  path : List Char
deriving DecidableEq

/-- Command.__init__: name is cmd[0], args is cmd[1:], path is the resolved
executable path for the name. -/
def Command.init (resolve : List Char → List Char) (cmd : List (List Char)) :
    Command :=
  ⟨cmd.headD [], cmd.tail, resolve (cmd.headD [])⟩

/-- A Python 3 value that is either a str or a bytes object, both carrying
character content (the model treats encode and decode as the identity on
content, which is exact for round-tripped UTF-8). -/
inductive PyData where
  | str : List Char → PyData
  | bytes : List Char → PyData
deriving DecidableEq

/-- The character content of a str or bytes value. -/
def PyData.content : PyData → List Char
  | .str s => s
  | .bytes s => s

/-- The argv vector Command.run hands to subprocess.Popen: the source passes
only the single-element list holding the resolved path. -/
def Command.popenArgv (c : Command) : List (List Char) := [c.path]

/-- Command.run: encode a str stdin, spawn the process on the Popen argv,
and return stdout (a bytes object), stderr and the exit code. -/
def Command.run (exec : Exec) (c : Command) (stdin : PyData) :
    PyData × List Char × Int :=
  let r := exec c.popenArgv stdin.content
  (PyData.bytes r.1, r.2.1, r.2.2)

/-- The result of Formatter.format: the decoded output, a raised
FormatterError carrying the parsed diagnostics, or the AttributeError raised
by calling decode on a str. -/
inductive FormatResult where
  | ok : List Char → FormatResult
  | err : List Error → FormatResult
  | attrError : FormatResult
deriving DecidableEq

/-- class Formatter of gofmt.py: the view and the commands built from the
configured pipeline. -/
structure Formatter where
  view : View
  cmds : List Command
deriving DecidableEq

/-- Formatter.__init__: build one Command per configured argument vector. -/
def Formatter.init (v : View) (config : List (List (List Char)))
    (resolve : List Char → List Char) : Formatter :=
  ⟨v, config.map (Command.init resolve)⟩

/-- The loop of Formatter.format: thread the buffer through the commands;
on non-empty stderr or nonzero exit code raise FormatterError with the
parsed diagnostics and run nothing further; after the loop decode the
buffer, which is an AttributeError when the buffer is still the initial str
(no command ever ran). -/
def formatLoop (exec : Exec) (v : View) (region : Region) :
    List Command → PyData → FormatResult
  | [], code =>
    match code with
    | .bytes s => .ok s
    | .str _ => .attrError
  | c :: rest, code =>
    let r := Command.run exec c code
    if r.2.1 ≠ [] ∨ r.2.2 ≠ 0 then .err (Error.parse_stderr r.2.1 region v)
    else formatLoop exec v region rest r.1

/-- Formatter.format: start from the region text, a str. -/
def Formatter.format (exec : Exec) (f : Formatter) (region : Region) :
    FormatResult :=
  formatLoop exec f.view region f.cmds (.str (f.view.substr region))

/-- How one call of run_formatter ended. -/
inductive RunOutcome where
  | done
  | failed : List Error → RunOutcome
  | internalError
deriving DecidableEq

/-- Whether the outcome is a FormatterError. -/
def RunOutcome.isFailed : RunOutcome → Bool
  | .failed _ => true
  | _ => false

/-- del view_errors[k] on the per-view error map, modelled as an
association list. -/
def cacheDel (m : List (Nat × List Error)) (k : Nat) :
    List (Nat × List Error) :=
  m.filter (fun p => p.1 != k)

/-- view_errors[k] = errs. -/
def cacheSet (m : List (Nat × List Error)) (k : Nat) (errs : List Error) :
    List (Nat × List Error) :=
  (k, errs) :: cacheDel m k

/-- view_errors.get(k). -/
def cacheGet (m : List (Nat × List Error)) (k : Nat) : Option (List Error) :=
  (m.find? (fun p => p.1 == k)).map (fun p => p.2)

/-- The final state of one run_formatter call: the view, the per-view error
map, the list of buffer replacements that were applied, and the outcome. -/
structure RunResult where
  view : View
  cache : List (Nat × List Error)
  edits : List (Region × List Char)
  outcome : RunOutcome
deriving DecidableEq

/-- The region loop of run_formatter: format each region against the live
view, replace the region only when the formatted text differs, and stop at
the first raised exception, leaving earlier replacements in place. -/
def processRegions (exec : Exec) (cmds : List Command) :
    List Region → View → List (Region × List Char) →
      View × List (Region × List Char) × RunOutcome
  | [], v, acc => (v, acc, .done)
  | r :: rest, v, acc =>
    match formatLoop exec v r cmds (.str (v.substr r)) with
    | .err errs => (v, acc, .failed errs)
    | .attrError => (v, acc, .internalError)
    | .ok repl =>
      if v.substr r ≠ repl then
        processRegions exec cmds rest (v.replace r repl) (acc ++ [(r, repl)])
      else
        processRegions exec cmds rest v acc

/-- run_formatter of gofmt.py: drop the cached diagnostics of the view,
run the region loop, and cache the diagnostics of a FormatterError; a
generic exception only shows a message and caches nothing. -/
def run_formatter (exec : Exec) (config : List (List (List Char)))
    (resolve : List Char → List Char) (viewId : Nat) (v : View)
    (regions : List Region) (cache : List (Nat × List Error)) : RunResult :=
  let cache1 := cacheDel cache viewId
  let f := Formatter.init v config resolve
  let res := processRegions exec f.cmds regions v []
  match res.2.2 with
  | .done => ⟨res.1, cache1, res.2.1, .done⟩
  | .failed errs => ⟨res.1, cacheSet cache1 viewId errs, res.2.1, .failed errs⟩
  | .internalError => ⟨res.1, cache1, res.2.1, .internalError⟩

/-- Modelled from the spec, section 4.2, as the comparator for the
refinement claim about the coordinator loop: thread the buffer through the
commands in order; at the first command whose exit code is nonzero or whose
stderr is non-empty, stop and fail with the diagnostics parsed from that
stderr; otherwise return the final buffer. -/
def specPipeline (exec : Exec) (v : View) (region : Region) :
    List Command → List Char → Except (List Error) (List Char)
  | [], buf => .ok buf
  | c :: rest, buf =>
    let r := Command.run exec c (.bytes buf)
    if r.2.1 ≠ [] ∨ r.2.2 ≠ 0 then .error (Error.parse_stderr r.2.1 region v)
    else specPipeline exec v region rest r.1.content

/-- A (row, col) pair lies within the bounds of a buffer when it is the
rowcol image of some offset of the buffer. -/
def validPos (text : List Char) (row col : Int) : Bool :=
  (List.range (text.length + 1)).any (fun o =>
    decide (((rowcolAux text o).1 : Int) = row ∧
            ((rowcolAux text o).2 : Int) = col))

/-- A raw 1-based diagnostic position lies within the bounds of the region
text the tool was given when it is, after the 1-to-0-based shift, the rowcol
image of some offset of that text. -/
def rawInRegion (regionText : List Char) (r c : Nat) : Bool :=
  decide (1 ≤ r) && decide (1 ≤ c) &&
  (List.range (regionText.length + 1)).any (fun o =>
    decide (rowcolAux regionText o = (r - 1, c - 1)))

/-- A stderr line is raw-in-bounds for a region text when it either does not
match the diagnostic pattern or reports a position inside that text. -/
def rawLineOk (regionText : List Char) (l : List Char) : Bool :=
  match lineMatch l with
  | none => true
  | some (r, c, _) => rawInRegion regionText r c

/-- Fixture: a toolchain resolver placing binaries under /bin. -/
def resolve0 : List Char → List Char := fun n => ("/bin/".data) ++ n

/-- Fixture: a two-line buffer with no backing file. -/
def view0 : View := ⟨("hello\nworld".data), none⟩

/-- Fixture: the whole-buffer region of view0. -/
def reg0 : Region := ⟨0, 11⟩

/-- Fixture: a buffer whose offset 18 sits at row 10, column 8. -/
def viewAt10x8 : View := ⟨List.replicate 10 '\n' ++ ("abcdefghXY".data), none⟩

/-- Fixture: a region of viewAt10x8 beginning at row 10, column 8. -/
def regAt10x8 : Region := ⟨18, 20⟩

/-- Fixture: a formatter that returns its input unchanged and succeeds. -/
def execEcho : Exec := fun _ s => (s, [], 0)

/-- Fixture: a formatter that rewrites the text aa to zz and fails on
anything else with a diagnostic on stderr and exit code 1. -/
def execFmt1 : Exec := fun _ s =>
  if s = ("aa".data) then (("zz".data), [], 0)
  else ([], ("<standard input>:1:1: boom".data), 1)

/-- Fixture: a formatter that fails on the text bad with a diagnostic and
exit code 1, and echoes anything else. -/
def execFail : Exec := fun _ s =>
  if s = ("bad".data) then ([], ("f:1:1: bad".data), 1) else (s, [], 0)

/-- Fixture: a two-line buffer for the multi-region counterexample. -/
def vAB : View := ⟨("aa\nbb".data), none⟩

/-- Fixture: a buffer holding the text that execFail rejects. -/
def vBad : View := ⟨("bad".data), none⟩

/-- Fixture: the whole-buffer region of vBad. -/
def regBad : Region := ⟨0, 3⟩

/-- Fixture: a one-command pipeline configuration named fmt. -/
def cfgFmt : List (List (List Char)) := [[("fmt".data)]]

/-- Fixture: a one-command pipeline configuration named cat. -/
def cfgCat : List (List (List Char)) := [[("cat".data)]]

/-- Fixture: the Command built from the default gofmt configuration. -/
def cmdGofmt : Command :=
  Command.init resolve0 [("gofmt".data), ("-e".data), ("-s".data)]

/-- Fixture: the Command built from the cat configuration. -/
def cmdCat : Command := Command.init resolve0 [("cat".data)]

/-- Fixture: the Command built from the fmt configuration. -/
def cmdFmt : Command := Command.init resolve0 [("fmt".data)]

/-- Fixture: an arbitrary cached diagnostic. -/
def errX : Error := ⟨("x".data), ⟨0, 0⟩, 0, 0, []⟩

/-- Fixture: a stderr mixing banner lines and two diagnostic lines. -/
def bannerStderr : List Char :=
  ("gofmt banner\nf:1:2: x\noops\nf:3:4: y".data)

/-- The parse loop is the filterMap of the per-line mapper over the lines. -/
lemma parseLoop_eq_filterMap (v : View) (rr rc : Nat) (fn : List Char) :
    ∀ ls, parseLoop v rr rc fn ls =
      ls.filterMap (fun l => (lineMatch l).map
        (fun t => mapDiagnostic v rr rc fn t.1 t.2.1 t.2.2)) := by
  intro ls
  induction ls with
  | nil => rfl
  | cons l ls ih =>
    cases h : lineMatch l with
    | none => simp [parseLoop, h, ih]
    | some t =>
      obtain ⟨r, c, m⟩ := t
      simp [parseLoop, h, ih]

/-- Row and column of each parsed diagnostic, as a function of the raw
matched numbers and the region origin. -/
lemma parseLoop_rowcol (v : View) (rr rc : Nat) (fn : List Char) :
    ∀ ls, (parseLoop v rr rc fn ls).map (fun e => (e.row, e.col)) =
      ls.filterMap (fun l => (lineMatch l).map (fun t =>
        ((t.1 : Int) - 1 + (rr : Int),
         if (t.1 : Int) - 1 = 0 then (t.2.1 : Int) - 1 + (rc : Int)
         else (t.2.1 : Int) - 1))) := by
  intro ls
  induction ls with
  | nil => rfl
  | cons l ls ih =>
    cases h : lineMatch l with
    | none => simp [parseLoop, h, ih]
    | some t =>
      obtain ⟨r, c, m⟩ := t
      simp [parseLoop, h, ih, mapDiagnostic]

/-- Message text of each parsed diagnostic is the raw message capture. -/
lemma parseLoop_text (v : View) (rr rc : Nat) (fn : List Char) :
    ∀ ls, (parseLoop v rr rc fn ls).map (fun e => e.text) =
      ls.filterMap (fun l => (lineMatch l).map (fun t => t.2.2)) := by
  intro ls
  induction ls with
  | nil => rfl
  | cons l ls ih =>
    cases h : lineMatch l with
    | none => simp [parseLoop, h, ih]
    | some t =>
      obtain ⟨r, c, m⟩ := t
      simp [parseLoop, h, ih, mapDiagnostic]

/-- The parse loop only uses the fn argument for the filename field. -/
lemma parseLoop_filename (t : List Char) (fo fo' : Option (List Char))
    (rr rc : Nat) (fn fn' : List Char) :
    ∀ ls, parseLoop ⟨t, fo⟩ rr rc fn ls =
      (parseLoop ⟨t, fo'⟩ rr rc fn' ls).map (fun e => e.setFilename fn) := by
  intro ls
  induction ls with
  | nil => rfl
  | cons l ls ih =>
    cases h : lineMatch l with
    | none => simp [parseLoop, h, ih]
    | some tr =>
      obtain ⟨r, c, m⟩ := tr
      simp only [parseLoop, h, List.map_cons]
      exact congrArg₂ _ rfl ih

/-- Every diagnostic the parse loop produces carries the fn argument as its
filename field. -/
lemma parseLoop_filename_const (v : View) (rr rc : Nat) (fn : List Char) :
    ∀ ls, (parseLoop v rr rc fn ls).map (fun e => e.filename) =
      (parseLoop v rr rc fn ls).map (fun _ => fn) := by
  intro ls
  induction ls with
  | nil => rfl
  | cons l ls ih =>
    cases h : lineMatch l with
    | none => simp only [parseLoop, h]; exact ih
    | some tr =>
      obtain ⟨r, c, m⟩ := tr
      simp only [parseLoop, h, List.map_cons]
      exact congrArg₂ _ rfl ih

/-- C1: for every stderr line matching the diagnostic pattern with 1-based
row r and column c, the mapped diagnostic has row (r-1)+regionOriginRow, and
column (c-1)+regionOriginCol when r-1 = 0, else column c-1; in particular a
region at origin (0,0) maps raw 1:5 to (0,4), and a region at row 10, col 8
maps raw 1:3 to (10,10) and raw 2:3 to (11,2). -/
theorem claim_C1 :
    (∀ (stderr : List Char) (region : Region) (v : View),
      (Error.parse_stderr stderr region v).map (fun e => (e.row, e.col)) =
        (pySplitLines (subbedStderr stderr v)).filterMap (fun l =>
          (lineMatch l).map (fun t =>
            ((t.1 : Int) - 1 + ((v.rowcol region.begin).1 : Int),
             if (t.1 : Int) - 1 = 0
             then (t.2.1 : Int) - 1 + ((v.rowcol region.begin).2 : Int)
             else (t.2.1 : Int) - 1)))) ∧
    (Error.parse_stderr ("f:1:5: msg".data) reg0 view0).map
      (fun e => (e.row, e.col)) = [((0 : Int), (4 : Int))] ∧
    (Error.parse_stderr ("x:1:3: m".data) regAt10x8 viewAt10x8).map
      (fun e => (e.row, e.col)) = [((10 : Int), (10 : Int))] ∧
    (Error.parse_stderr ("x:2:3: m".data) regAt10x8 viewAt10x8).map
      (fun e => (e.row, e.col)) = [((11 : Int), (2 : Int))] := by
  refine ⟨fun stderr region v => ?_, by decide, by decide, by decide⟩
  exact parseLoop_rowcol v (v.rowcol region.begin).1 (v.rowcol region.begin).2
    v.displayName (pySplitLines (subbedStderr stderr v))

/-- C2: the spec says an empty pipeline is pass-through, but on the code an
empty pipeline makes Formatter.format call decode on the str returned by
view.substr, raising AttributeError instead of returning the region text. -/
theorem claim_C2 :
    (∀ (exec : Exec) (v : View) (region : Region),
      Formatter.format exec ⟨v, []⟩ region = FormatResult.attrError) ∧
    (∀ (v : View) (resolve : List Char → List Char),
      Formatter.init v [] resolve = ⟨v, []⟩) ∧
    Formatter.format execEcho ⟨view0, []⟩ reg0 ≠
      FormatResult.ok (view0.substr reg0) :=
  ⟨fun _ _ _ => rfl, fun _ _ => rfl, by decide⟩

/-- C3: the spec says each invocation launches the subprocess with the
resolved path followed by the static arguments, but Command.run passes
subprocess.Popen only the one-element argv holding the resolved path; the
configured static arguments are dropped. -/
theorem claim_C3 :
    (∀ (resolve : List Char → List Char) (cmd : List (List Char)),
      (Command.init resolve cmd).popenArgv = [resolve (cmd.headD [])]) ∧
    cmdGofmt.args = [("-e".data), ("-s".data)] ∧
    cmdGofmt.popenArgv = [("/bin/gofmt".data)] ∧
    cmdGofmt.popenArgv ≠ cmdGofmt.path :: cmdGofmt.args :=
  ⟨fun _ _ => rfl, by decide, by decide, by decide⟩

/-- C5 counterexample: with no backing file the placeholder token is left in
the diagnostic text; it is not replaced by the anonymous-buffer label. -/
theorem claim_C5_cex :
    (Error.parse_stderr (("<standard input>:1:1: bad <standard input> here").data)
        ⟨0, 5⟩ ⟨("hello".data), none⟩).map (fun e => e.text) =
      [("bad <standard input> here".data)] ∧
    (Error.parse_stderr (("<standard input>:1:1: bad <standard input> here").data)
        ⟨0, 5⟩ ⟨("hello".data), none⟩).map (fun e => e.text) ≠
      [("bad <anonymous buffer> here".data)] :=
  ⟨by decide, by decide⟩

/-- C5 amended: when the buffer has a backing file the stderr is parsed with
the placeholder token replaced by the short file name, which also becomes
each diagnostic filename; when it has none the stderr is parsed unchanged
(the token is not replaced) and the anonymous-buffer label is used only as
the filename field. -/
theorem claim_C5 :
    (∀ (text : List Char) (region : Region) (stderr f : List Char),
      Error.parse_stderr stderr region ⟨text, some f⟩ =
        (Error.parse_stderr (listReplace stdinToken (basename f) stderr)
            region ⟨text, none⟩).map (fun e => e.setFilename (basename f))) ∧
    (∀ (text : List Char) (region : Region) (stderr : List Char),
      (Error.parse_stderr stderr region ⟨text, none⟩).map (fun e => e.filename) =
        (Error.parse_stderr stderr region ⟨text, none⟩).map
          (fun _ => anonymousLabel)) ∧
    (∀ (text : List Char) (region : Region) (stderr : List Char),
      (Error.parse_stderr stderr region ⟨text, none⟩).map (fun e => e.text) =
        (pySplitLines stderr).filterMap (fun l =>
          (lineMatch l).map (fun t => t.2.2))) := by
  refine ⟨fun text region stderr f => ?_, fun text region stderr => ?_,
    fun text region stderr => ?_⟩
  · exact parseLoop_filename text (some f) none _ _ (basename f) anonymousLabel
      (pySplitLines (listReplace stdinToken (basename f) stderr))
  · exact parseLoop_filename_const ⟨text, none⟩ _ _ anonymousLabel
      (pySplitLines stderr)
  · exact parseLoop_text ⟨text, none⟩ _ _ anonymousLabel (pySplitLines stderr)

/-- C8: lines of the (substituted) stderr that do not match the diagnostic
pattern contribute no diagnostic and raise no error; the diagnostics are
exactly those of the matching lines, in order. -/
theorem claim_C8 :
    (∀ (stderr : List Char) (region : Region) (v : View),
      Error.parse_stderr stderr region v =
        (pySplitLines (subbedStderr stderr v)).filterMap (fun l =>
          (lineMatch l).map (fun t =>
            mapDiagnostic v (v.rowcol region.begin).1
              (v.rowcol region.begin).2 v.displayName t.1 t.2.1 t.2.2))) ∧
    (Error.parse_stderr bannerStderr reg0 view0).map (fun e => e.text) =
      [("x".data), ("y".data)] := by
  refine ⟨fun stderr region v => ?_, by decide⟩
  exact parseLoop_eq_filterMap v (v.rowcol region.begin).1
    (v.rowcol region.begin).2 v.displayName
    (pySplitLines (subbedStderr stderr v))

/-- Feeding a str or a bytes value with the same content to a command is the
same invocation. -/
lemma formatLoop_str_bytes (exec : Exec) (v : View) (region : Region)
    (c : Command) (rest : List Command) (s : List Char) :
    formatLoop exec v region (c :: rest) (.str s) =
      formatLoop exec v region (c :: rest) (.bytes s) := rfl

/-- On a bytes buffer, the format loop agrees with the spec-side pipeline:
the Except value of the latter maps onto ok and err of the former. -/
lemma formatLoop_bytes (exec : Exec) (v : View) (region : Region) :
    ∀ (cmds : List Command) (s : List Char),
      formatLoop exec v region cmds (.bytes s) =
        (match specPipeline exec v region cmds s with
         | .ok out => FormatResult.ok out
         | .error e => FormatResult.err e) := by
  intro cmds
  induction cmds with
  | nil => intro s; rfl
  | cons c rest ih =>
    intro s
    simp only [formatLoop, specPipeline]
    by_cases hf : (Command.run exec c (.bytes s)).2.1 ≠ [] ∨
        (Command.run exec c (.bytes s)).2.2 ≠ 0
    · rw [if_pos hf, if_pos hf]
    · rw [if_neg hf, if_neg hf]
      exact ih (exec c.popenArgv s).1

/-- C4: format runs the pipeline commands in order, feeding each stdout to
the next stdin; it raises FormatterError with the parsed diagnostics exactly
when some command in the threaded run returns nonzero exit code or non-empty
stderr, returns the final buffer otherwise (on a non-empty pipeline), and
never invokes a command after the first failing one. -/
theorem claim_C4 :
    ∀ (exec : Exec) (v : View) (region : Region) (cmds : List Command),
      (∀ e, Formatter.format exec ⟨v, cmds⟩ region = FormatResult.err e ↔
        specPipeline exec v region cmds (v.substr region) = Except.error e) ∧
      (∀ s, cmds ≠ [] →
        (Formatter.format exec ⟨v, cmds⟩ region = FormatResult.ok s ↔
          specPipeline exec v region cmds (v.substr region) = Except.ok s)) ∧
      (∀ (c : Command) (rest rest' : List Command) (b : PyData),
        (Command.run exec c b).2.1 ≠ [] ∨ (Command.run exec c b).2.2 ≠ 0 →
        formatLoop exec v region (c :: rest) b =
          formatLoop exec v region (c :: rest') b) := by
  intro exec v region cmds
  refine ⟨?_, ?_, ?_⟩
  · intro e
    cases cmds with
    | nil => simp [Formatter.format, formatLoop, specPipeline]
    | cons c rest =>
      show formatLoop exec v region (c :: rest) (.str (v.substr region)) =
          _ ↔ _
      rw [formatLoop_str_bytes, formatLoop_bytes]
      cases hs : specPipeline exec v region (c :: rest) (v.substr region) with
      | ok out => simp
      | error e' => simp
  · intro s hne
    cases cmds with
    | nil => exact absurd rfl hne
    | cons c rest =>
      show formatLoop exec v region (c :: rest) (.str (v.substr region)) =
          _ ↔ _
      rw [formatLoop_str_bytes, formatLoop_bytes]
      cases hs : specPipeline exec v region (c :: rest) (v.substr region) with
      | ok out => simp
      | error e' => simp
  · intro c rest rest' b hfail
    show (if (Command.run exec c b).2.1 ≠ [] ∨ (Command.run exec c b).2.2 ≠ 0
        then FormatResult.err
          (Error.parse_stderr (Command.run exec c b).2.1 region v)
        else formatLoop exec v region rest (Command.run exec c b).1) = _
    rw [if_pos hfail]
    show _ = (if (Command.run exec c b).2.1 ≠ [] ∨
        (Command.run exec c b).2.2 ≠ 0
        then FormatResult.err
          (Error.parse_stderr (Command.run exec c b).2.1 region v)
        else formatLoop exec v region rest' (Command.run exec c b).1)
    rw [if_pos hfail]

/-- C4 witness: a successful one-command pipeline agrees with the spec-side
pipeline, and a failing first command makes the tail irrelevant. -/
theorem claim_C4_witness :
    (Formatter.format execEcho ⟨view0, [cmdCat]⟩ reg0 =
        FormatResult.ok (view0.substr reg0) ↔
      specPipeline execEcho view0 reg0 [cmdCat] (view0.substr reg0) =
        Except.ok (view0.substr reg0)) ∧
    formatLoop execFail view0 reg0 [cmdFmt, cmdCat] (.bytes ("bad".data)) =
      formatLoop execFail view0 reg0 [cmdFmt] (.bytes ("bad".data)) :=
  ⟨(claim_C4 execEcho view0 reg0 [cmdCat]).2.1 (view0.substr reg0)
      (by decide),
   (claim_C4 execFail view0 reg0 [cmdFmt, cmdCat]).2.2 cmdFmt [cmdCat] []
      (.bytes ("bad".data)) (by decide)⟩

/-- Deleting a key from the error map leaves no entry for it. -/
lemma cacheGet_del (m : List (Nat × List Error)) (k : Nat) :
    cacheGet (cacheDel m k) k = none := by
  unfold cacheGet cacheDel
  rw [List.find?_eq_none.mpr]
  · rfl
  · intro x hx
    have hne := (List.mem_filter.mp hx).2
    simpa using hne

/-- Setting a key in the error map makes lookup return the new value. -/
lemma cacheGet_set (m : List (Nat × List Error)) (k : Nat)
    (errs : List Error) :
    cacheGet (cacheSet m k errs) k = some errs := by
  unfold cacheGet cacheSet
  rw [List.find?_cons_of_pos]
  · rfl
  · simp

/-- When every region formats to its own current text, the region loop
applies no replacement and ends normally. -/
lemma processRegions_noop (exec : Exec) (cmds : List Command) :
    ∀ (regions : List Region) (v : View) (acc : List (Region × List Char)),
      (∀ r ∈ regions,
        formatLoop exec v r cmds (.str (v.substr r)) =
          FormatResult.ok (v.substr r)) →
      processRegions exec cmds regions v acc = (v, acc, .done) := by
  intro regions
  induction regions with
  | nil => intro v acc _; rfl
  | cons r rest ih =>
    intro v acc h
    have hr := h r (List.mem_cons_self r rest)
    show (match formatLoop exec v r cmds (.str (v.substr r)) with
      | FormatResult.err errs => (v, acc, RunOutcome.failed errs)
      | FormatResult.attrError => (v, acc, RunOutcome.internalError)
      | FormatResult.ok repl =>
        if v.substr r ≠ repl then
          processRegions exec cmds rest (v.replace r repl) (acc ++ [(r, repl)])
        else processRegions exec cmds rest v acc) = (v, acc, RunOutcome.done)
    rw [hr]
    show (if v.substr r ≠ v.substr r then _ else processRegions exec cmds rest v acc) = _
    rw [if_neg (fun hne => hne rfl)]
    exact ih v acc (fun r' hr' => h r' (List.mem_cons_of_mem r hr'))

/-- C7: if format succeeds on every region and returns text equal to the
region text, run_formatter performs no buffer replacement and leaves the
buffer as it was. -/
theorem claim_C7 :
    ∀ (exec : Exec) (config : List (List (List Char)))
      (resolve : List Char → List Char) (viewId : Nat) (v : View)
      (regions : List Region) (cache : List (Nat × List Error)),
      (∀ r ∈ regions,
        Formatter.format exec (Formatter.init v config resolve) r =
          FormatResult.ok (v.substr r)) →
      (run_formatter exec config resolve viewId v regions cache).view = v ∧
      (run_formatter exec config resolve viewId v regions cache).edits = [] ∧
      (run_formatter exec config resolve viewId v regions cache).outcome =
        RunOutcome.done := by
  intro exec config resolve viewId v regions cache h
  have hp := processRegions_noop exec (Formatter.init v config resolve).cmds
    regions v [] h
  refine ⟨?_, ?_, ?_⟩ <;> simp [run_formatter, hp]

/-- C7 witness: an echoing pipeline over two regions leaves the buffer
untouched, applies no edit, and ends normally. -/
theorem claim_C7_witness :
    (run_formatter execEcho cfgCat resolve0 5 view0
        [⟨0, 5⟩, ⟨6, 11⟩] []).view = view0 ∧
    (run_formatter execEcho cfgCat resolve0 5 view0
        [⟨0, 5⟩, ⟨6, 11⟩] []).edits = [] ∧
    (run_formatter execEcho cfgCat resolve0 5 view0
        [⟨0, 5⟩, ⟨6, 11⟩] []).outcome = RunOutcome.done :=
  claim_C7 execEcho cfgCat resolve0 5 view0 [⟨0, 5⟩, ⟨6, 11⟩] [] (by decide)

/-- C6 counterexample: over two regions, when the first formats successfully
to different text and the second fails, the attempt fails but the buffer
does not equal its pre-attempt text. -/
theorem claim_C6_cex :
    (run_formatter execFmt1 cfgFmt resolve0 3 vAB [⟨0, 2⟩, ⟨3, 5⟩] []).outcome.isFailed
        = true ∧
    (run_formatter execFmt1 cfgFmt resolve0 3 vAB [⟨0, 2⟩, ⟨3, 5⟩] []).view.text =
      ("zz\nbb".data) ∧
    (run_formatter execFmt1 cfgFmt resolve0 3 vAB [⟨0, 2⟩, ⟨3, 5⟩] []).view.text ≠
      vAB.text :=
  ⟨by decide, by decide, by decide⟩

/-- C6 amended: when a format attempt on a single region fails on a command
of the pipeline, the buffer is left exactly as it was, no edit is applied,
and the diagnostic cache for that buffer is set to the parsed diagnostics of
the failing command; with several regions, regions formatted before the
failing one may already have been replaced. -/
theorem claim_C6 :
    ∀ (exec : Exec) (config : List (List (List Char)))
      (resolve : List Char → List Char) (viewId : Nat) (v : View)
      (r : Region) (cache : List (Nat × List Error)) (errs : List Error),
      Formatter.format exec (Formatter.init v config resolve) r =
        FormatResult.err errs →
      (run_formatter exec config resolve viewId v [r] cache).view = v ∧
      (run_formatter exec config resolve viewId v [r] cache).edits = [] ∧
      cacheGet (run_formatter exec config resolve viewId v [r] cache).cache
        viewId = some errs ∧
      (run_formatter exec config resolve viewId v [r] cache).outcome =
        RunOutcome.failed errs := by
  intro exec config resolve viewId v r cache errs h
  have hc : formatLoop exec v r (Formatter.init v config resolve).cmds
      (.str (v.substr r)) = FormatResult.err errs := h
  have hp : processRegions exec (Formatter.init v config resolve).cmds [r] v []
      = (v, [], RunOutcome.failed errs) := by
    show (match formatLoop exec v r (Formatter.init v config resolve).cmds
        (.str (v.substr r)) with
      | FormatResult.err errs => (v, [], RunOutcome.failed errs)
      | FormatResult.attrError => (v, [], RunOutcome.internalError)
      | FormatResult.ok repl =>
        if v.substr r ≠ repl then
          processRegions exec (Formatter.init v config resolve).cmds []
            (v.replace r repl) ([] ++ [(r, repl)])
        else processRegions exec (Formatter.init v config resolve).cmds [] v [])
      = (v, [], RunOutcome.failed errs)
    rw [hc]
  refine ⟨?_, ?_, ?_, ?_⟩ <;> simp [run_formatter, hp, cacheGet_set]

/-- C6 witness: a failing single-region attempt leaves the buffer unchanged
and caches the parsed diagnostics. -/
theorem claim_C6_witness :
    (run_formatter execFail cfgFmt resolve0 7 vBad [regBad] []).view = vBad ∧
    (run_formatter execFail cfgFmt resolve0 7 vBad [regBad] []).edits = [] ∧
    cacheGet (run_formatter execFail cfgFmt resolve0 7 vBad [regBad] []).cache 7
      = some (Error.parse_stderr ("f:1:1: bad".data) regBad vBad) ∧
    (run_formatter execFail cfgFmt resolve0 7 vBad [regBad] []).outcome =
      RunOutcome.failed (Error.parse_stderr ("f:1:1: bad".data) regBad vBad) :=
  claim_C6 execFail cfgFmt resolve0 7 vBad regBad []
    (Error.parse_stderr ("f:1:1: bad".data) regBad vBad) (by decide)

/-- C10: starting a format attempt first drops the cached diagnostics of
the buffer, so the final cache entry does not depend on the previous one;
it is none when the attempt succeeds or dies on an internal error, and it is
repopulated with the parsed diagnostics exactly when the attempt fails. -/
theorem claim_C10 :
    ∀ (exec : Exec) (config : List (List (List Char)))
      (resolve : List Char → List Char) (viewId : Nat) (v : View)
      (regions : List Region) (cache cache' : List (Nat × List Error)),
      cacheGet (run_formatter exec config resolve viewId v regions cache).cache
          viewId =
        cacheGet (run_formatter exec config resolve viewId v regions
          cache').cache viewId ∧
      ((run_formatter exec config resolve viewId v regions cache).outcome =
          RunOutcome.done →
        cacheGet (run_formatter exec config resolve viewId v regions
          cache).cache viewId = none) ∧
      ((run_formatter exec config resolve viewId v regions cache).outcome =
          RunOutcome.internalError →
        cacheGet (run_formatter exec config resolve viewId v regions
          cache).cache viewId = none) ∧
      (∀ errs,
        (run_formatter exec config resolve viewId v regions cache).outcome =
          RunOutcome.failed errs →
        cacheGet (run_formatter exec config resolve viewId v regions
          cache).cache viewId = some errs) := by
  intro exec config resolve viewId v regions cache cache'
  cases hp : (processRegions exec (Formatter.init v config resolve).cmds
      regions v []).2.2 with
  | done =>
    refine ⟨?_, fun _ => ?_, fun hout => ?_, fun errs hout => ?_⟩
    · simp [run_formatter, hp, cacheGet_del]
    · simp [run_formatter, hp, cacheGet_del]
    · simp [run_formatter, hp] at hout
    · simp [run_formatter, hp] at hout
  | failed errs0 =>
    refine ⟨?_, fun hout => ?_, fun hout => ?_, fun errs hout => ?_⟩
    · simp [run_formatter, hp, cacheGet_set]
    · simp [run_formatter, hp] at hout
    · simp [run_formatter, hp] at hout
    · have he : errs0 = errs := by simpa [run_formatter, hp] using hout
      subst he
      simp [run_formatter, hp, cacheGet_set]
  | internalError =>
    refine ⟨?_, fun hout => ?_, fun _ => ?_, fun errs hout => ?_⟩
    · simp [run_formatter, hp, cacheGet_del]
    · simp [run_formatter, hp] at hout
    · simp [run_formatter, hp, cacheGet_del]
    · simp [run_formatter, hp] at hout

/-- rowcol of an empty buffer is the origin at every offset. -/
lemma rowcolAux_nil : ∀ o, rowcolAux [] o = (0, 0) := by
  intro o; cases o <;> rfl

/-- rowcol of offset zero is the origin in every buffer. -/
lemma rowcolAux_zero (l : List Char) : rowcolAux l 0 = (0, 0) := by
  cases l <;> rfl

/-- rowcol only looks at the text before the offset, so a take beyond the
offset does not change it. -/
lemma rowcol_take : ∀ (l : List Char) (n o : Nat), o ≤ n →
    rowcolAux (l.take n) o = rowcolAux l o := by
  intro l
  induction l with
  | nil => intro n o _; simp [List.take_nil]
  | cons ch t ih =>
    intro n o h
    cases n with
    | zero =>
      have ho : o = 0 := Nat.le_zero.mp h
      subst ho
      simp [rowcolAux_zero]
    | succ m =>
      cases o with
      | zero => simp [rowcolAux_zero]
      | succ k =>
        have hk : k ≤ m := Nat.succ_le_succ_iff.mp h
        simp only [List.take_succ_cons]
        show rowcolAux (ch :: t.take m) (k + 1) = rowcolAux (ch :: t) (k + 1)
        simp only [rowcolAux]
        rw [ih m k hk]

/-- Shift rule for rowcol: the position of offset a + o in a buffer is the
position of offset o in the buffer dropped at a, moved down by the row of a,
and moved right by the column of a exactly when o is still on the first
line of the dropped part. -/
lemma rowcol_add : ∀ (l : List Char) (a o : Nat), a ≤ l.length →
    rowcolAux l (a + o) =
      ((rowcolAux (l.drop a) o).1 + (rowcolAux l a).1,
       if (rowcolAux (l.drop a) o).1 = 0
       then (rowcolAux (l.drop a) o).2 + (rowcolAux l a).2
       else (rowcolAux (l.drop a) o).2) := by
  intro l
  induction l with
  | nil =>
    intro a o h
    have ha : a = 0 := by simpa using h
    subst ha
    simp [rowcolAux_nil, rowcolAux_zero]
  | cons ch t ih =>
    intro a o h
    cases a with
    | zero =>
      simp only [Nat.zero_add, List.drop_zero, rowcolAux_zero]
      generalize rowcolAux (ch :: t) o = q
      obtain ⟨q1, q2⟩ := q
      by_cases h0 : q1 = 0 <;> simp [h0]
    | succ m =>
      have hm : m ≤ t.length := by simpa using h
      have e1 : m + 1 + o = (m + o) + 1 := by omega
      rw [e1]
      simp only [List.drop_succ_cons]
      simp only [rowcolAux]
      rw [ih m o hm]
      generalize rowcolAux (t.drop m) o = q
      generalize rowcolAux t m = p
      obtain ⟨q1, q2⟩ := q
      obtain ⟨p1, p2⟩ := p
      by_cases hch : ch = '\n' <;>
        simp only [hch, if_true, if_false, reduceIte] <;>
        split_ifs <;>
        simp_all [Prod.mk.injEq] <;>
        omega

/-- Core bound for the amended in-bounds claim: when the raw coordinates of
a matching line lie inside the region text, the mapped diagnostic has
coordinates reachable by some offset of the whole buffer. -/
lemma mapped_valid (text : List Char) (fname : Option (List Char))
    (a b : Nat) (fn : List Char) (r c : Nat) (m : List Char)
    (hab : a ≤ b) (hbl : b ≤ text.length)
    (hr : rawInRegion ((text.drop a).take (b - a)) r c = true) :
    validPos text
      (mapDiagnostic ⟨text, fname⟩ (rowcolAux text a).1 (rowcolAux text a).2
        fn r c m).row
      (mapDiagnostic ⟨text, fname⟩ (rowcolAux text a).1 (rowcolAux text a).2
        fn r c m).col = true := by
  unfold rawInRegion at hr
  simp only [Bool.and_eq_true, decide_eq_true_eq, List.any_eq_true,
    List.mem_range] at hr
  obtain ⟨⟨hr1, hc1⟩, o, ho, hro⟩ := hr
  have holen : o ≤ ((text.drop a).take (b - a)).length := Nat.lt_succ_iff.mp ho
  have holen2 : o ≤ b - a := by
    refine le_trans holen ?_
    simp [List.length_take]
  have hdrop : rowcolAux (text.drop a) o = (r - 1, c - 1) := by
    rw [← rowcol_take (text.drop a) (b - a) o holen2]
    exact hro
  have hal : a ≤ text.length := le_trans hab hbl
  have hsum := rowcol_add text a o hal
  rw [hdrop] at hsum
  have hrow : (mapDiagnostic (⟨text, fname⟩ : View) (rowcolAux text a).1
      (rowcolAux text a).2 fn r c m).row =
      (r : Int) - 1 + ((rowcolAux text a).1 : Int) := rfl
  have hcol : (mapDiagnostic (⟨text, fname⟩ : View) (rowcolAux text a).1
      (rowcolAux text a).2 fn r c m).col =
      (if (r : Int) - 1 = 0
       then (c : Int) - 1 + ((rowcolAux text a).2 : Int)
       else (c : Int) - 1) := rfl
  unfold validPos
  simp only [List.any_eq_true, decide_eq_true_eq, List.mem_range]
  refine ⟨a + o, by omega, ?_, ?_⟩
  · have hfst : (rowcolAux text (a + o)).1 = (r - 1) + (rowcolAux text a).1 := by
      rw [hsum]
    rw [hfst, hrow]
    omega
  · have hsnd : (rowcolAux text (a + o)).2 =
        (if r - 1 = 0 then (c - 1) + (rowcolAux text a).2 else c - 1) := by
      rw [hsum]
    rw [hsnd, hcol]
    split_ifs <;> omega

/-- Every diagnostic the parse loop produces from raw-in-bounds lines has
its mapped position inside the buffer. -/
lemma parseLoop_valid (text : List Char) (fname : Option (List Char))
    (a b : Nat) (fn : List Char) (hab : a ≤ b) (hbl : b ≤ text.length) :
    ∀ ls, (∀ l ∈ ls, rawLineOk ((text.drop a).take (b - a)) l = true) →
      ∀ e ∈ parseLoop ⟨text, fname⟩ (rowcolAux text a).1 (rowcolAux text a).2
          fn ls,
        validPos text e.row e.col = true := by
  intro ls
  induction ls with
  | nil =>
    intro _ e he
    simp [parseLoop] at he
  | cons l ls ih =>
    intro h e he
    cases hm : lineMatch l with
    | none =>
      simp only [parseLoop, hm] at he
      exact ih (fun l' hl' => h l' (List.mem_cons_of_mem _ hl')) e he
    | some t =>
      obtain ⟨r, c, m⟩ := t
      simp only [parseLoop, hm] at he
      rcases List.mem_cons.mp he with he1 | he2
      · subst he1
        have hok := h l (List.mem_cons_self l ls)
        unfold rawLineOk at hok
        rw [hm] at hok
        exact mapped_valid text fname a b fn r c m hab hbl hok
      · exact ih (fun l' hl' => h l' (List.mem_cons_of_mem _ hl')) e he2

/-- C9 counterexample: a stderr line reporting row 100 of a one-line buffer
produces a diagnostic whose mapped position is outside the buffer. -/
theorem claim_C9_cex :
    (Error.parse_stderr ("f:100:1: m".data) ⟨0, 1⟩ ⟨("x".data), none⟩).map
      (fun e => validPos ("x".data) e.row e.col) = [false] := by decide

/-- C9 amended: every diagnostic parsed from a failing command has its
mapped row and column within the bounds of the original buffer text,
provided each matching stderr line reports raw coordinates that lie within
the bounds of the region text the tool was given. -/
theorem claim_C9 :
    ∀ (text : List Char) (fname : Option (List Char)) (a b : Nat)
      (stderr : List Char),
      a ≤ b → b ≤ text.length →
      (∀ l ∈ pySplitLines (subbedStderr stderr ⟨text, fname⟩),
        rawLineOk (View.substr ⟨text, fname⟩ ⟨a, b⟩) l = true) →
      ∀ e ∈ Error.parse_stderr stderr ⟨a, b⟩ ⟨text, fname⟩,
        validPos text e.row e.col = true := by
  intro text fname a b stderr hab hbl hraw e he
  have hmin : min a b = a := Nat.min_eq_left hab
  have hmax : max a b = b := Nat.max_eq_right hab
  have hsub : View.substr ⟨text, fname⟩ ⟨a, b⟩ =
      (text.drop a).take (b - a) := by
    simp [View.substr, Region.begin, Region.end', hmin, hmax]
  rw [hsub] at hraw
  have hpeq : Error.parse_stderr stderr ⟨a, b⟩ ⟨text, fname⟩ =
      parseLoop ⟨text, fname⟩ (rowcolAux text a).1 (rowcolAux text a).2
        (View.displayName ⟨text, fname⟩)
        (pySplitLines (subbedStderr stderr ⟨text, fname⟩)) := by
    unfold Error.parse_stderr
    simp [View.rowcol, Region.begin, hmin]
  rw [hpeq] at he
  exact parseLoop_valid text fname a b _ hab hbl _ hraw e he

/-- C9 witness: a diagnostic on the second line of a mid-buffer region maps
inside the buffer. -/
theorem claim_C9_witness :
    (Error.parse_stderr ("f:2:2: m".data) ⟨1, 6⟩
        ⟨("abc\ndef".data), none⟩).all
      (fun e => validPos ("abc\ndef".data) e.row e.col) = true := by
  apply List.all_eq_true.mpr
  intro e he
  exact claim_C9 ("abc\ndef".data) none 1 6 ("f:2:2: m".data)
    (by decide) (by decide) (by decide) e he

/-- C10 witness: a successful attempt leaves no cache entry even when one
was present before; a failing attempt overwrites the stale entry with the
new diagnostics. -/
theorem claim_C10_witness :
    cacheGet (run_formatter execEcho cfgCat resolve0 5 view0 [reg0]
        [(5, [errX])]).cache 5 = none ∧
    cacheGet (run_formatter execFail cfgFmt resolve0 7 vBad [regBad]
        [(7, [errX])]).cache 7 =
      some (Error.parse_stderr ("f:1:1: bad".data) regBad vBad) :=
  ⟨(claim_C10 execEcho cfgCat resolve0 5 view0 [reg0] [(5, [errX])] []).2.1
      (by decide),
   (claim_C10 execFail cfgFmt resolve0 7 vBad [regBad] [(7, [errX])] []).2.2.2
      (Error.parse_stderr ("f:1:1: bad".data) regBad vBad) (by decide)⟩

end Gofmt
